import Mathlib

/-!
swinje/ftpserver: a shallow embedding of `main.go`.

Go strings are modelled as Lean strings, Go `int` as `Int` with explicit
wrap-around at 64 bits where overflow matters. The standard-library
functions the program calls (`fmt.Sscanf`, `strings.Fields`,
`filepath.Join`, `filepath.Abs`) are modelled by structural recursion on
character lists; the filesystem and the network are an explicit `World`
of oracles. A reply is recorded when the program sends it on a reply
channel (`ch <- msg`), in program order; what the writer goroutines then do
on the socket is not modelled, nor is logging. The input of a session is the
list of lines its `bufio.Scanner` returns. A run-time panic in a handler
goroutine ends the process, so it is an outcome of its own (`none`,
`Ending.panic`). File and payload bytes are opaque to the program, which only
copies them; they are modelled as strings as well.
-/

namespace Ftp

/-! ## Status constants (main.go, lines 16-29) -/

def status150 : String := "150 OK"
def status200 : String := "200 OK"
def status220 : String := "220 OK"
def status221 : String := "221 Service closing control connection."
def status226 : String := "226 OK"
def status425 : String := "425 Can't open data connection."
def status426 : String := "426 Connection closed; transfer aborted."
def status501 : String := "501 Syntax error in parameters or arguments."
def status502 : String := "502 Command not implemented."
def status504 : String := "504 Cammand not implemented for that parameter."
def status550 : String := "550 File unavailable."

/-- The format `status230 = "230 User %s logged in."` applied to one string. -/
def status230 (name : String) : String := "230 User " ++ name ++ " logged in."

/-! ## Machine integers -/

/-- Wrap an integer to the signed 64-bit range (Go `int` on a 64-bit target). -/
def wrap64 (x : Int) : Int := (x + 2 ^ 63) % 2 ^ 64 - 2 ^ 63

/-! ## `fmt.Sscanf(val, "%d,%d,%d,%d,%d,%d", ...)` -/

/-- The white space table of package `fmt` (scan.go, `isSpace`). -/
def isSpaceRune (c : Char) : Bool :=
  let n := c.toNat
  (0x09 ≤ n && n ≤ 0x0d) || n == 0x20 || n == 0x85 || n == 0xa0 || n == 0x1680 ||
  (0x2000 ≤ n && n ≤ 0x200a) || n == 0x2028 || n == 0x2029 || n == 0x202f ||
  n == 0x205f || n == 0x3000

/-- The decimal digits accepted by the verb `%d`. -/
def isDecimalDigit (c : Char) : Bool := 48 ≤ c.toNat && c.toNat ≤ 57

/-- `ss.SkipSpace` with `nlIsSpace = false`: white space is skipped, a newline
is an error (`none`). -/
def skipSpace : List Char → Option (List Char)
  | [] => some []
  | c :: cs =>
    if c = '\n' then none
    else if isSpaceRune c then skipSpace cs
    else some (c :: cs)

/-- The loop `for s.accept(digits) {}`: the longest run of digits and the rest. -/
def takeDigits : List Char → List Char × List Char
  | [] => ([], [])
  | c :: cs =>
    if isDecimalDigit c then ((takeDigits cs).1.cons c, (takeDigits cs).2)
    else ([], c :: cs)

/-- The value of a run of decimal digits. -/
def digitsValue (ds : List Char) : Nat :=
  ds.foldl (fun acc c => 10 * acc + (c.toNat - 48)) 0

/-- `ss.scanInt('d', 64)`: skip space, an optional sign, at least one digit,
then `strconv.ParseInt(tok, 10, 64)`, which fails outside the int64 range.
`none` is the scan error that ends `Sscanf`. -/
def scanInt (s : List Char) : Option (Int × List Char) :=
  match skipSpace s with
  | none => none
  | some [] => none
  | some (c :: cs) =>
    let neg := c = '-'
    let body := if c = '+' ∨ c = '-' then cs else c :: cs
    match takeDigits body with
    | ([], _) => none
    | (d :: ds, rest) =>
      let v : Int := if neg then - (digitsValue (d :: ds) : Int) else (digitsValue (d :: ds) : Int)
      if - 2 ^ 63 ≤ v ∧ v < 2 ^ 63 then some (v, rest) else none

/-- The operands of `Sscanf` that were assigned, in order, for a format of
`n` verbs `%d` separated by commas. Scanning stops at the first error; what
follows the last number is not looked at. -/
def scanFields : Nat → List Char → List Int
  | 0, _ => []
  | n + 1, s =>
    match scanInt s with
    | none => []
    | some (v, rest) =>
      match n, rest with
      | 0, _ => [v]
      | _ + 1, ',' :: rest' => v :: scanFields n rest'
      | _ + 1, _ => [v]

/-- The decimal rendering of `%d`. -/
def fmtInt (x : Int) : String := toString x

/-- Go `portAdress` (main.go, lines 127-142). The fields of `dp` start at
zero and keep that value when `Sscanf` stops early. -/
def portAdress (val : String) : String :=
  let fs := scanFields 6 val.data
  let h1 := fs.getD 0 0
  let h2 := fs.getD 1 0
  let h3 := fs.getD 2 0
  let h4 := fs.getD 3 0
  let p1 := fs.getD 4 0
  let p2 := fs.getD 5 0
  let port := wrap64 (wrap64 (p1 * 2 ^ 8) + p2)
  fmtInt h1 ++ "." ++ fmtInt h2 ++ "." ++ fmtInt h3 ++ "." ++ fmtInt h4 ++ ":" ++ fmtInt port

/-! ## `strings.Fields`, `strings.Join` -/

/-- Go `strings.Fields`, worker: `cur` is the current token, reversed.
`unicode.IsSpace` and the table of package `fmt` hold the same runes. -/
def fieldsAux : List Char → List Char → List String
  | [], cur => if cur = [] then [] else [String.mk cur.reverse]
  | c :: cs, cur =>
    if isSpaceRune c then
      (if cur = [] then fieldsAux cs [] else String.mk cur.reverse :: fieldsAux cs [])
    else fieldsAux cs (c :: cur)

/-- Go `strings.Fields`: the maximal runs of non-space characters. -/
def stringsFields (s : String) : List String := fieldsAux s.data []

/-- Go `strings.Join`. -/
def stringsJoin : List String → String → String
  | [], _ => ""
  | [a], _ => a
  | a :: b :: rest, sep => a ++ sep ++ stringsJoin (b :: rest) sep

/-! ## `path/filepath` on a Unix target -/

/-- The elements of a path between its separators. -/
def splitSlash : List Char → List (List Char)
  | [] => [[]]
  | c :: cs =>
    if c = '/' then [] :: splitSlash cs
    else
      match splitSlash cs with
      | [] => [[c]]
      | x :: xs => (c :: x) :: xs

/-- One element of `filepath.Clean`; `out` is the output so far, last element
first. Empty and `.` elements are dropped; `..` removes the last real
element, is kept in front of a relative path and dropped at the root. -/
def cleanStep (rooted : Bool) (out : List (List Char)) (comp : List Char) : List (List Char) :=
  if comp = [] ∨ comp = ['.'] then out
  else if comp = ['.', '.'] then
    match out with
    | top :: below => if top = ['.', '.'] then comp :: out else below
    | [] => if rooted then [] else [comp]
  else comp :: out

/-- Join path elements with one separator between them. -/
def joinSlash : List (List Char) → List Char
  | [] => []
  | [a] => a
  | a :: b :: rest => a ++ '/' :: joinSlash (b :: rest)

/-- Go `filepath.Clean`. -/
def filepathClean (path : String) : String :=
  match path.data with
  | [] => "."
  | c :: cs =>
    let rooted : Bool := c = '/'
    let out := (splitSlash (c :: cs)).foldl (cleanStep rooted) []
    if rooted then String.mk ('/' :: joinSlash out.reverse)
    else if out = [] then "." else String.mk (joinSlash out.reverse)

/-- Go `filepath.Join`: leading empty elements are ignored, the rest is
joined with separators and cleaned; all empty gives the empty string. -/
def filepathJoin : List String → String
  | [] => ""
  | e :: es => if e = "" then filepathJoin es else filepathClean (stringsJoin (e :: es) "/")

/-- Go `filepath.IsAbs`. -/
def filepathIsAbs (path : String) : Bool :=
  match path.data with
  | c :: _ => c = '/'
  | [] => false

/-! ## The world outside: filesystem and network -/

/-- What reading an opened file to its end gives. -/
structure FileRead where
  /-- The bytes read before the end of the file or the error. -/
  content : String
  /-- The read ends in an error rather than at the end of the file. -/
  readFails : Bool
  deriving DecidableEq

/-- The peer of a data connection. -/
structure DataConn where
  /-- The bytes the peer sends before its side ends. -/
  incoming : String
  /-- The read side ends in an error rather than in a clean close. -/
  readFails : Bool
  /-- How many bytes the peer takes before writes start to fail; `none`: no limit. -/
  writeBudget : Option Nat
  deriving DecidableEq

/-- Answers of the operating system. Paths are the strings handed to the call. -/
structure World where
  /-- The result of `os.Getwd`. -/
  getwd : Option String
  /-- Whether `os.Stat` succeeds. -/
  stat : String → Bool
  /-- The result of `ioutil.ReadDir`: the entry names, sorted by the system. -/
  readDir : String → Option (List String)
  /-- The result of `os.Open`. -/
  openFile : String → Option FileRead
  /-- Whether `os.Create` succeeds. -/
  canCreate : String → Bool
  /-- The result of connecting to a non-empty address. -/
  dial : String → Option DataConn

/-- The world after `content` has been written to the file created at `path`:
every path that cleans to the same text opens with that content. The other
answers are kept as they were. -/
def World.putFile (w : World) (path content : String) : World :=
  { w with
    openFile := fun p =>
      if filepathClean p = filepathClean path then some ⟨content, false⟩ else w.openFile p
    stat := fun p => if filepathClean p = filepathClean path then true else w.stat p }

/-- Go `net.Dial("tcp", address)`: an empty address is refused before any
connection is tried ("missing address"). -/
def netDial (w : World) (address : String) : Option DataConn :=
  if address = "" then none else w.dial address

/-- Go `filepath.Abs`. -/
def filepathAbs (w : World) (path : String) : Option String :=
  if filepathIsAbs path then some (filepathClean path)
  else
    match w.getwd with
    | none => none
    | some wd => some (filepathJoin [wd, path])

/-- The write side of an open data connection: the bytes sent so far and the
bytes the peer still takes. -/
structure Wire where
  budget : Option Nat
  sent : String

/-- One `Write`: all of `s` goes out when the peer takes it, else the part
that fits goes out and the call fails. -/
def Wire.write (w : Wire) (s : String) : Wire × Bool :=
  match w.budget with
  | none => (⟨none, w.sent ++ s⟩, true)
  | some b =>
    if s.length ≤ b then (⟨some (b - s.length), w.sent ++ s⟩, true)
    else (⟨some 0, w.sent ++ String.mk (s.data.take b)⟩, false)

/-! ## The handlers (main.go, lines 114-304) -/

/-- Go `EOL` (main.go, lines 114-119). -/
def EOL (dataType : Int) : String := if dataType = 0 then "\r\n" else "\n"

/-- What a data-bearing handler did: the replies it sent, in order, and the
bytes it sent on the data connection. -/
structure Effect where
  replies : List String
  data : String
  deriving DecidableEq

/-- The loop of `list` over the directory entries (main.go, lines 173-180):
one `Fprint` of name and line ending per entry, stopping at the first failure. -/
def writeNames (eol : String) : List String → Wire → Wire × Bool
  | [], w => (w, true)
  | f :: fs, w =>
    match w.write (f ++ eol) with
    | (w1, true) => writeNames eol fs w1
    | (w1, false) => (w1, false)

/-- The variable `target` of `list` (main.go, lines 149-154). -/
def listTarget (workDir : String) (args : List String) : String :=
  match args with
  | a :: _ => filepathJoin [".", workDir, a]
  | [] => filepathJoin [".", workDir]

/-- Go `list` (main.go, lines 144-190). -/
def list (w : World) (args : List String) (workDir address : String) (dataType : Int) : Effect :=
  match w.readDir (listTarget workDir args) with
  | none => ⟨[status550], ""⟩
  | some files =>
    match netDial w address with
    | none => ⟨[status150, status425], ""⟩
    | some conn =>
      match writeNames (EOL dataType) files ⟨conn.writeBudget, ""⟩ with
      | (w1, false) => ⟨[status150, status426], w1.sent⟩
      | (w1, true) =>
        match w1.write (EOL dataType) with
        | (w2, false) => ⟨[status150, status426], w2.sent⟩
        | (w2, true) => ⟨[status150, status226], w2.sent⟩

/-- Go `changeDir` (main.go, lines 192-206): the reply and the new values of
`*workdir` and `*absPath`. Both are assigned before `os.Stat` is called; a
failed `filepath.Abs` leaves the empty string in `*absPath`. -/
def changeDir (w : World) (args : List String) (workdir absPath : String) :
    String × String × String :=
  match args with
  | [a] =>
    let workdir1 := filepathJoin [workdir, a]
    let absPath1 := (filepathAbs w workdir1).getD ""
    if w.stat absPath1 then (status200, workdir1, absPath1)
    else (status550, workdir1, absPath1)
  | _ => (status501, workdir, absPath)

/-- Go `getFile` (main.go, lines 208-244). The result of the last write, of
the line ending, is not looked at. -/
def getFile (w : World) (args : List String) (workDir address : String) (dataType : Int) :
    Effect :=
  match args with
  | [a] =>
    match w.openFile (filepathJoin [workDir, a]) with
    | none => ⟨[status550], ""⟩
    | some file =>
      match netDial w address with
      | none => ⟨[status150, status425], ""⟩
      | some conn =>
        match Wire.write ⟨conn.writeBudget, ""⟩ file.content with
        | (w1, false) => ⟨[status150, status426], w1.sent⟩
        | (w1, true) =>
          if file.readFails then ⟨[status150, status426], w1.sent⟩
          else ⟨[status150, status226], (w1.write (EOL dataType)).1.sent⟩
  | _ => ⟨[status501], ""⟩

/-- Go `storeFile` (main.go, lines 246-282), with the world it leaves. The
file is created at `args[0]` as given, `workDir` is not used. A failed
`os.Create` is logged only; the copy into the nil file then fails at once. -/
def storeFile (w : World) (args : List String) (_workDir address : String) (_dataType : Int) :
    Effect × World :=
  match args with
  | [a] =>
    let created := w.canCreate a
    let w1 := if created then w.putFile a "" else w
    match netDial w address with
    | none => (⟨[status150, status425], ""⟩, w1)
    | some conn =>
      if created then
        if conn.readFails then (⟨[status150, status426], ""⟩, w.putFile a conn.incoming)
        else (⟨[status150, status226], ""⟩, w.putFile a conn.incoming)
      else (⟨[status150, status426], ""⟩, w1)
  | _ => (⟨[status501], ""⟩, w)

/-- Go `setDataType` (main.go, lines 284-304): the replies and the new value
of `*dataType`. -/
def setDataType (args : List String) (dataType : Int) : List String × Int :=
  match args with
  | [] => ([status501], dataType)
  | a :: _ =>
    if a = "A" then ([status200], 0)
    else if a = "I" then ([status200], 1)
    else ([status504], dataType)

/-! ## The session (main.go, lines 38-112) -/

/-- The variables `workDir` and `absPath` of `main`; every `handleConn`
receives pointers to them. -/
structure Shared where
  workDir : String
  absPath : String
  deriving DecidableEq

/-- The variables `address` and `dataType` of one `handleConn`. -/
structure Local where
  address : String
  dataType : Int
  deriving DecidableEq

/-- The state after one command. -/
structure Step where
  world : World
  shared : Shared
  loc : Local
  /-- The replies sent for the command, in order. -/
  replies : List String
  /-- The bytes sent on the data connection. -/
  data : String
  /-- The handler returned from `handleConn`. -/
  quit : Bool

/-- The `switch` of `handleConn` (main.go, lines 83-109). `none` is a run-time
panic: `args[0]` on an empty `args`. -/
def dispatch (w : World) (sh : Shared) (lo : Local) (command : String) (args : List String) :
    Option Step :=
  if command = "USER" then
    some ⟨w, sh, lo, [status230 (stringsJoin args " ")], "", false⟩
  else if command = "CWD" then
    let r := changeDir w args sh.workDir sh.absPath
    some ⟨w, ⟨r.2.1, r.2.2⟩, lo, [r.1], "", false⟩
  else if command = "LIST" then
    let e := list w args sh.workDir lo.address lo.dataType
    some ⟨w, sh, lo, e.replies, e.data, false⟩
  else if command = "PORT" then
    match args with
    | [] => none
    | a :: _ => some ⟨w, sh, ⟨portAdress a, lo.dataType⟩, [status200], "", false⟩
  else if command = "LPRT" then
    some ⟨w, sh, lo, [status200], "", false⟩
  else if command = "QUIT" then
    some ⟨w, sh, lo, [status221], "", true⟩
  else if command = "RETR" then
    let e := getFile w args sh.workDir lo.address lo.dataType
    some ⟨w, sh, lo, e.replies, e.data, false⟩
  else if command = "TYPE" then
    let r := setDataType args lo.dataType
    some ⟨w, sh, ⟨lo.address, r.2⟩, r.1, "", false⟩
  else if command = "PWD" then
    some ⟨w, sh, lo, [sh.absPath], "", false⟩
  else if command = "STOR" then
    let r := storeFile w args sh.workDir lo.address lo.dataType
    some ⟨r.2, sh, lo, r.1.replies, r.1.data, false⟩
  else
    some ⟨w, sh, lo, [status502], "", false⟩

/-- The body of the scan loop for one line of input (main.go, lines 76-109):
a line without fields is skipped. -/
def handleLine (w : World) (sh : Shared) (lo : Local) (line : String) : Option Step :=
  match stringsFields line with
  | [] => some ⟨w, sh, lo, [], "", false⟩
  | command :: args => dispatch w sh lo command args

/-- How a session ended. -/
inductive Ending where
  /-- The input ended. -/
  | eof
  /-- The handler returned at `QUIT`. -/
  | quit
  /-- A run-time panic ended the process. -/
  | panic
  deriving DecidableEq, Repr

/-- A run of the scan loop. -/
structure Trace where
  world : World
  shared : Shared
  loc : Local
  /-- All replies sent, in order. -/
  replies : List String
  /-- All bytes sent on data connections, in order. -/
  data : String
  /-- How many lines had their command dispatched to completion. -/
  processed : Nat
  ending : Ending

/-- The scan loop of `handleConn` (main.go, lines 75-111) over the lines read. -/
def scanLoop (w : World) (sh : Shared) (lo : Local) : List String → Trace
  | [] => ⟨w, sh, lo, [], "", 0, Ending.eof⟩
  | line :: rest =>
    match handleLine w sh lo line with
    | none => ⟨w, sh, lo, [], "", 0, Ending.panic⟩
    | some st =>
      if st.quit then ⟨st.world, st.shared, st.loc, st.replies, st.data, 1, Ending.quit⟩
      else
        let t := scanLoop st.world st.shared st.loc rest
        ⟨t.world, t.shared, t.loc, st.replies ++ t.replies, st.data ++ t.data,
          t.processed + 1, t.ending⟩

/-- Go `handleConn` (main.go, lines 62-112): the greeting, then the scan loop
with `address` empty and `dataType` zero. -/
def handleConn (w : World) (sh : Shared) (lines : List String) : Trace :=
  let t := scanLoop w sh ⟨"", 0⟩ lines
  ⟨t.world, t.shared, t.loc, (status220 ++ " FTP server") :: t.replies, t.data,
    t.processed, t.ending⟩

/-! ## The server: `main` and its connections -/

/-- One accepted connection: the locals of its `handleConn` and whether the
handler has returned. -/
structure Conn where
  loc : Local
  closed : Bool

/-- The running process: the world, the two variables of `main`, and the
connections accepted so far, oldest first. -/
structure Server where
  world : World
  shared : Shared
  conns : List Conn

/-- Go `main` (main.go, lines 38-51) up to the accept loop; `none` when
`filepath.Abs` fails and `log.Fatal` ends the process. -/
def mainInit (w : World) : Option Server :=
  match filepathAbs w "." with
  | none => none
  | some a => some ⟨w, ⟨".", a⟩, []⟩

/-- What happens next in the process. -/
inductive Event where
  /-- The listener accepts a connection and starts its `handleConn`. -/
  | accept
  /-- Connection `i` reads one line and runs the loop body on it. -/
  | line (i : Nat) (text : String)

/-- One event. `none`: a panic in a handler ends the process. A line for a
connection that does not exist or has returned changes nothing. -/
def Server.step (s : Server) : Event → Option Server
  | Event.accept => some ⟨s.world, s.shared, s.conns ++ [⟨⟨"", 0⟩, false⟩]⟩
  | Event.line i text =>
    match s.conns[i]? with
    | none => some s
    | some c =>
      if c.closed then some s
      else
        match handleLine s.world s.shared c.loc text with
        | none => none
        | some st => some ⟨st.world, st.shared, s.conns.set i ⟨st.loc, st.quit⟩⟩

/-- A sequence of events. -/
def Server.run (s : Server) : List Event → Option Server
  | [] => some s
  | e :: es =>
    match s.step e with
    | none => none
    | some s1 => s1.run es

/-- The working directory, relative and absolute, that connection `i` works
with: the variables of `main` its handler points to. -/
def Server.workingDir (s : Server) (i : Nat) : Option Shared :=
  match s.conns[i]? with
  | none => none
  | some _ => some s.shared

/-- The representation type and peer data address of connection `i`. -/
def Server.locals (s : Server) (i : Nat) : Option Local :=
  match s.conns[i]? with
  | none => none
  | some c => some c.loc

/-! ## Reply lines -/

/-- A reply of the form: three decimal digits, one space, a message. -/
def isReplyLine (s : String) : Bool :=
  match s.data with
  | a :: b :: c :: sp :: m :: _ =>
    isDecimalDigit a && isDecimalDigit b && isDecimalDigit c && sp = ' ' && m ≠ ' '
  | _ => false

/-- The fixed reply texts the handlers `changeDir`, `list`, `getFile`,
`storeFile` and `setDataType` choose from. -/
def handlerReplies : List String :=
  [status150, status200, status226, status425, status426, status501, status504, status550]

/-- The line is a `QUIT` command: its first field is the verb `QUIT`. -/
def isQuitLine (line : String) : Bool := (stringsFields line).head? = some "QUIT"

/-- The directory of the process, when known, is an absolute path. -/
def World.absoluteWd (w : World) : Prop :=
  ∀ wd, w.getwd = some wd → filepathIsAbs wd = true

/-- The last reply of a list. -/
def lastReply (rs : List String) : Option String := rs.getLast?

/-- The listing the specification describes: each name followed by the line
ending, in order, then one more line ending. -/
def listingText (eol : String) : List String → String
  | [] => eol
  | name :: names => name ++ eol ++ listingText eol names

/-- The peer takes at least `n` bytes before writes fail. -/
def DataConn.takes (c : DataConn) (n : Nat) : Prop :=
  ∀ b, c.writeBudget = some b → n ≤ b

/-! ## A small world for concrete runs -/

/-- The process runs in `/srv`; `/srv` and `/srv/sub` exist; `sub/x` holds
"old"; every file can be created; the client at 127.0.0.1:8080 accepts data
connections, takes all that is written and sends "new". -/
def demoWorld : World :=
  { getwd := some "/srv"
    stat := fun p => p = "/srv" || p = "/srv/sub"
    readDir := fun p => if p = "." then some ["sub"] else if p = "sub" then some ["x"] else none
    openFile := fun p => if p = "sub/x" then some ⟨"old", false⟩ else none
    canCreate := fun _ => true
    dial := fun a => if a = "127.0.0.1:8080" then some ⟨"new", false, none⟩ else none }

/-- The process of `main` started in the small world, at its accept loop. -/
def demoServer : Server := ⟨demoWorld, ⟨".", "/srv"⟩, []⟩

/-- The working directory connection `i` works with after the events `es`. -/
def Server.workingDirAfter (s : Server) (es : List Event) (i : Nat) : Option Shared :=
  match s.run es with
  | none => none
  | some s1 => s1.workingDir i

/-- The locals of connection `i` after the events `es`. -/
def Server.localsAfter (s : Server) (es : List Event) (i : Nat) : Option Local :=
  match s.run es with
  | none => none
  | some s1 => s1.locals i

/-- A character list is the decimal text of `n`: non-empty, digits only, value `n`. -/
def IsDecimalText (ds : List Char) (n : Nat) : Prop :=
  ds ≠ [] ∧ (∀ c ∈ ds, isDecimalDigit c = true) ∧ digitsValue ds = n

/-- What may follow a number for the scan of its digits to stop there. -/
def StopsDigits (rest : List Char) : Prop :=
  rest = [] ∨ ∃ c cs, rest = c :: cs ∧ isDecimalDigit c = false

/-! ## Decimal text: what `%d` prints, `%d` scans back -/

theorem digitChar_toNat (k : Nat) (hk : k < 10) : (Nat.digitChar k).toNat = k + 48 := by
  interval_cases k <;> rfl

theorem digitChar_isDecimalDigit (k : Nat) (hk : k < 10) :
    isDecimalDigit (Nat.digitChar k) = true := by
  interval_cases k <;> rfl

theorem toDigitsCore_acc (fuel n : Nat) (acc : List Char) :
    Nat.toDigitsCore 10 fuel n acc = Nat.toDigitsCore 10 fuel n [] ++ acc := by
  induction fuel generalizing n acc with
  | zero => simp [Nat.toDigitsCore]
  | succ f ih =>
    simp only [Nat.toDigitsCore]
    split
    · simp
    · rw [ih (n / 10) (_ :: acc), ih (n / 10) [_]]
      simp

theorem digitsValue_snoc (ds : List Char) (d : Char) :
    digitsValue (ds ++ [d]) = 10 * digitsValue ds + (d.toNat - 48) := by
  simp [digitsValue, List.foldl_append]

theorem toDigitsCore_isDecimalText (fuel n : Nat) (h : n < fuel) :
    IsDecimalText (Nat.toDigitsCore 10 fuel n []) n := by
  induction fuel generalizing n with
  | zero => omega
  | succ f ih =>
    have hd : n % 10 < 10 := Nat.mod_lt _ (by decide)
    simp only [Nat.toDigitsCore]
    split
    · rename_i h0
      refine ⟨by simp, ?_, ?_⟩
      · intro c hc
        simp only [List.mem_singleton] at hc
        subst hc
        exact digitChar_isDecimalDigit _ hd
      · simp [digitsValue, digitChar_toNat _ hd]
        omega
    · rename_i h0
      rw [toDigitsCore_acc]
      obtain ⟨_, h2, h3⟩ := ih (n / 10) (by omega)
      refine ⟨by simp, ?_, ?_⟩
      · intro c hc
        simp only [List.mem_append, List.mem_singleton] at hc
        rcases hc with hc | hc
        · exact h2 c hc
        · subst hc
          exact digitChar_isDecimalDigit _ hd
      · rw [digitsValue_snoc, h3, digitChar_toNat _ hd]
        omega

theorem toString_isDecimalText (n : Nat) : IsDecimalText (toString n).data n :=
  toDigitsCore_isDecimalText (n + 1) n (Nat.lt_succ_self n)

theorem takeDigits_append (ds rest : List Char) (hds : ∀ c ∈ ds, isDecimalDigit c = true)
    (hrest : StopsDigits rest) : takeDigits (ds ++ rest) = (ds, rest) := by
  induction ds with
  | nil =>
    rcases hrest with h | ⟨c, cs, h, hc⟩
    · subst h; rfl
    · subst h; simp [takeDigits, hc]
  | cons d ds ih =>
    have hd : isDecimalDigit d = true := hds d (List.mem_cons_self _ _)
    have ih2 := ih (fun c hc => hds c (List.mem_cons_of_mem _ hc))
    simp [takeDigits, hd, ih2]

theorem isDecimalDigit_not_special (c : Char) (h : isDecimalDigit c = true) :
    c ≠ '\n' ∧ isSpaceRune c = false ∧ c ≠ '+' ∧ c ≠ '-' := by
  simp only [isDecimalDigit, Bool.and_eq_true, decide_eq_true_eq] at h
  refine ⟨?_, ?_, ?_, ?_⟩
  · rintro rfl; revert h; decide
  · simp only [isSpaceRune]
    have h1 := h.1
    have h2 := h.2
    simp
    omega
  · rintro rfl; revert h; decide
  · rintro rfl; revert h; decide

theorem scanInt_decimalText (ds rest : List Char) (n : Nat) (hds : IsDecimalText ds n)
    (hn : n < 2 ^ 63) (hrest : StopsDigits rest) :
    scanInt (ds ++ rest) = some ((n : Int), rest) := by
  obtain ⟨hne, hdig, hval⟩ := hds
  cases ds with
  | nil => exact absurd rfl hne
  | cons d ds =>
    obtain ⟨h1, h2, h3, h4⟩ := isDecimalDigit_not_special d (hdig d (List.mem_cons_self _ _))
    have ht := takeDigits_append (d :: ds) rest hdig hrest
    simp only [List.cons_append] at ht
    simp only [scanInt, List.cons_append, skipSpace, h1, h2, h3, h4, if_false, or_self, ht,
      hval, Bool.false_eq_true, decide_False]
    have : (-2 ^ 63 : Int) ≤ (n : Int) ∧ (n : Int) < 2 ^ 63 := by
      constructor
      · have : (0 : Int) ≤ (n : Int) := Int.ofNat_nonneg n
        omega
      · exact_mod_cast hn
    have ht2 : takeDigits (d :: ds.append rest) = (d :: ds, rest) := ht
    rw [ht2]
    simp only [hval]
    rw [if_pos this]

theorem scanFields_more (k : Nat) (ds rest : List Char) (n : Nat) (hds : IsDecimalText ds n)
    (hn : n < 2 ^ 63) :
    scanFields (k + 2) (ds ++ ',' :: rest) = (n : Int) :: scanFields (k + 1) rest := by
  have hs : StopsDigits (',' :: rest) := Or.inr ⟨',', rest, rfl, by decide⟩
  rw [scanFields, scanInt_decimalText ds (',' :: rest) n hds hn hs]
  rfl

theorem scanFields_last (ds : List Char) (n : Nat) (hds : IsDecimalText ds n)
    (hn : n < 2 ^ 63) : scanFields 1 ds = [(n : Int)] := by
  have h := scanInt_decimalText ds [] n hds hn (Or.inl rfl)
  rw [List.append_nil] at h
  rw [scanFields, h]

theorem wrap64_of_small (x : Int) (h0 : 0 ≤ x) (h1 : x < 2 ^ 63) : wrap64 x = x := by
  unfold wrap64
  omega

/-- C1. For all h1, h2, h3, h4, p1, p2 in [0,255], `portAdress` applied to the
decimal text "h1,h2,h3,h4,p1,p2" returns "h1.h2.h3.h4:" followed by the
decimal rendering of p1*256+p2. -/
theorem portAdress_decodes (h1 h2 h3 h4 p1 p2 : Nat)
    (b1 : h1 ≤ 255) (b2 : h2 ≤ 255) (b3 : h3 ≤ 255) (b4 : h4 ≤ 255)
    (b5 : p1 ≤ 255) (b6 : p2 ≤ 255) :
    portAdress (toString h1 ++ "," ++ toString h2 ++ "," ++ toString h3 ++ "," ++
        toString h4 ++ "," ++ toString p1 ++ "," ++ toString p2)
      = toString h1 ++ "." ++ toString h2 ++ "." ++ toString h3 ++ "." ++
        toString h4 ++ ":" ++ toString (p1 * 256 + p2) := by
  have hc : (",").data = [','] := rfl
  have hdata : (toString h1 ++ "," ++ toString h2 ++ "," ++ toString h3 ++ "," ++
        toString h4 ++ "," ++ toString p1 ++ "," ++ toString p2).data
      = (toString h1).data ++ ',' :: ((toString h2).data ++ ',' :: ((toString h3).data ++
        ',' :: ((toString h4).data ++ ',' :: ((toString p1).data ++
        ',' :: (toString p2).data)))) := by
    simp only [String.data_append, hc, List.append_assoc, List.singleton_append,
      List.cons_append, List.nil_append]
  have hfs : scanFields 6 (toString h1 ++ "," ++ toString h2 ++ "," ++ toString h3 ++ "," ++
        toString h4 ++ "," ++ toString p1 ++ "," ++ toString p2).data
      = [(h1 : Int), (h2 : Int), (h3 : Int), (h4 : Int), (p1 : Int), (p2 : Int)] := by
    rw [hdata,
      scanFields_more 4 _ _ h1 (toString_isDecimalText h1) (by omega),
      scanFields_more 3 _ _ h2 (toString_isDecimalText h2) (by omega),
      scanFields_more 2 _ _ h3 (toString_isDecimalText h3) (by omega),
      scanFields_more 1 _ _ h4 (toString_isDecimalText h4) (by omega),
      scanFields_more 0 _ _ p1 (toString_isDecimalText p1) (by omega),
      scanFields_last _ p2 (toString_isDecimalText p2) (by omega)]
  have hport : wrap64 (wrap64 ((p1 : Int) * 2 ^ 8) + (p2 : Int)) = ((p1 * 256 + p2 : Nat) : Int) := by
    rw [wrap64_of_small ((p1 : Int) * 2 ^ 8) (by positivity) (by omega)]
    rw [wrap64_of_small _ (by positivity) (by omega)]
    push_cast
    norm_num
  simp only [portAdress, hfs, List.getD_cons_zero, List.getD_cons_succ, hport]
  rfl

/-- The witness of C1: "127,0,0,1,31,144" gives "127.0.0.1:8080". -/
theorem portAdress_decodes_witness :
    portAdress "127,0,0,1,31,144" = "127.0.0.1:8080" :=
  portAdress_decodes 127 0 0 1 31 144 (by decide) (by decide) (by decide) (by decide)
    (by decide) (by decide)

/-! ## Dispatch: the run-time panic of `PORT` -/

/-- C2. The line `PORT`, with no argument, makes the dispatch step of
`handleConn` panic at `args[0]`, in every session state: no reply is sent,
where the claim promises the reply 200 and no run-time fault. -/
theorem handleLine_PORT_no_argument_panics (w : World) (sh : Shared) (lo : Local) :
    handleLine w sh lo "PORT" = none := by
  rfl

/-- The only panic of the dispatch step is `PORT` without an argument. -/
theorem dispatch_eq_none_iff (w : World) (sh : Shared) (lo : Local) (command : String)
    (args : List String) :
    dispatch w sh lo command args = none ↔ command = "PORT" ∧ args = [] := by
  by_cases hP : command = "PORT"
  · subst hP
    cases args with
    | nil => simp [dispatch]
    | cons a rest => simp [dispatch]
  · simp only [dispatch, hP, if_false, false_and, iff_false]
    split_ifs <;> simp

/-- With at least one argument `PORT` replies 200 whatever the argument is. -/
theorem dispatch_PORT_replies_200 (w : World) (sh : Shared) (lo : Local) (a : String)
    (rest : List String) :
    (dispatch w sh lo "PORT" (a :: rest)).map Step.replies = some [status200] := by
  rfl


/-! ## `CWD`: the directory change is applied before the check -/

/-- C3. In the session of a server running in `/srv`, `CWD nope` for a
directory that does not exist replies 550, yet `*workdir` and `*absPath` have
been overwritten: `PWD` reports `/srv` before the failed `CWD` and
`/srv/nope` after it, where the claim says the path is unchanged. -/
theorem changeDir_failure_overwrites_workdir :
    changeDir demoWorld ["nope"] "." "/srv" = (status550, "nope", "/srv/nope") ∧
    (handleConn demoWorld ⟨".", "/srv"⟩ ["PWD", "CWD nope", "PWD"]).replies
      = ["220 OK FTP server", "/srv", "550 File unavailable.", "/srv/nope"] := by
  decide

/-- For every session and every single argument whose resolved path does not
exist, `changeDir` replies 550 and stores the joined path all the same. -/
theorem changeDir_missing_target (w : World) (a workdir absPath : String)
    (h : w.stat ((filepathAbs w (filepathJoin [workdir, a])).getD "") = false) :
    changeDir w [a] workdir absPath
      = (status550, filepathJoin [workdir, a],
          (filepathAbs w (filepathJoin [workdir, a])).getD "") := by
  simp [changeDir, h]

/-! ## Data commands before any `PORT` -/

theorem netDial_empty (w : World) : netDial w "" = none := by
  simp [netDial]

/-- C5, as stated, fails: in a new session, before any `PORT`, `RETR` without
an argument ends with 501 and `LIST nope` of a missing directory with 550,
not with 425. -/
theorem data_command_before_PORT_counterexample :
    lastReply (handleConn demoWorld ⟨".", "/srv"⟩ ["RETR"]).replies = some status501 ∧
    lastReply (handleConn demoWorld ⟨".", "/srv"⟩ ["LIST nope"]).replies = some status550 ∧
    status501 ≠ status425 ∧ status550 ≠ status425 := by
  decide

/-- C5, amended. With the peer data address still empty: a `LIST` whose
directory can be read, a `RETR` with exactly one argument whose file opens and
a `STOR` with exactly one argument send 150 and end with 425; a `LIST` or
`RETR` whose directory or file is unavailable replies 550 only; a `RETR` or
`STOR` whose argument count is not one replies 501 only. -/
theorem data_command_before_PORT (w : World) (workDir : String) (dataType : Int) :
    (∀ args names, w.readDir (listTarget workDir args) = some names →
      (list w args workDir "" dataType).replies = [status150, status425]) ∧
    (∀ args, w.readDir (listTarget workDir args) = none →
      (list w args workDir "" dataType).replies = [status550]) ∧
    (∀ a file, w.openFile (filepathJoin [workDir, a]) = some file →
      (getFile w [a] workDir "" dataType).replies = [status150, status425]) ∧
    (∀ a, w.openFile (filepathJoin [workDir, a]) = none →
      (getFile w [a] workDir "" dataType).replies = [status550]) ∧
    (∀ a, (storeFile w [a] workDir "" dataType).1.replies = [status150, status425]) ∧
    (∀ args, args.length ≠ 1 →
      (getFile w args workDir "" dataType).replies = [status501] ∧
      (storeFile w args workDir "" dataType).1.replies = [status501]) := by
  refine ⟨?_, ?_, ?_, ?_, ?_, ?_⟩
  · intro args names h
    simp [list, h, netDial_empty]
  · intro args h
    simp [list, h]
  · intro a file h
    simp [getFile, h, netDial_empty]
  · intro a h
    simp [getFile, h]
  · intro a
    simp [storeFile, netDial_empty]
  · intro args h
    match args, h with
    | [], _ => exact ⟨rfl, rfl⟩
    | [_], h => exact absurd rfl h
    | _ :: _ :: _, _ => exact ⟨rfl, rfl⟩

/-- The witness of C5 amended: in the concrete world, with workDir `sub`. -/
theorem data_command_before_PORT_witness :
    (list demoWorld [] "sub" "" 0).replies = [status150, status425] ∧
    (list demoWorld ["nope"] "sub" "" 0).replies = [status550] ∧
    (getFile demoWorld ["x"] "sub" "" 0).replies = [status150, status425] ∧
    (getFile demoWorld ["y"] "sub" "" 0).replies = [status550] ∧
    (getFile demoWorld [] "sub" "" 0).replies = [status501] ∧
    (storeFile demoWorld [] "sub" "" 0).1.replies = [status501] :=
  have h := data_command_before_PORT demoWorld "sub" 0
  ⟨h.1 [] ["x"] (by decide), h.2.1 ["nope"] (by decide),
    h.2.2.1 "x" ⟨"old", false⟩ (by decide), h.2.2.2.1 "y" (by decide),
    (h.2.2.2.2.2 [] (by decide)).1, (h.2.2.2.2.2 [] (by decide)).2⟩

/-! ## `STOR` then `RETR` -/

/-- C6. In a session that has changed to `sub` and registered the client's
address, `STOR x` receives "new" and ends with 226, then `RETR x` ends with
226 and sends "old" and a line ending: `storeFile` creates `x` in the
directory of the process, `getFile` opens `sub/x`. The claim says "new" and a
line ending are sent. -/
theorem stor_then_retr_in_subdirectory :
    (handleConn demoWorld ⟨".", "/srv"⟩
        ["CWD sub", "PORT 127,0,0,1,31,144", "STOR x", "RETR x"]).replies
      = ["220 OK FTP server", "200 OK", "200 OK", "150 OK", "226 OK", "150 OK", "226 OK"] ∧
    (handleConn demoWorld ⟨".", "/srv"⟩
        ["CWD sub", "PORT 127,0,0,1,31,144", "STOR x", "RETR x"]).data = "old\r\n" ∧
    (netDial demoWorld "127.0.0.1:8080").map DataConn.incoming = some "new" := by
  decide

/-- In the same run with the session left in the directory of the process,
and a peer that takes three bytes only: `RETR` of a file holding "old" sends
"old", the write of the line ending fails, and the reply is 226 all the same:
`getFile` does not look at the result of that write, `list` does. -/
theorem retr_ignores_failed_line_ending :
    getFile { demoWorld with
        openFile := fun _ => some ⟨"old", false⟩
        dial := fun _ => some ⟨"", false, some 3⟩ } ["x"] "." "127.0.0.1:8080" 0
      = ⟨[status150, status226], "old"⟩ ∧
    list { demoWorld with
        readDir := fun _ => some ["x"]
        dial := fun _ => some ⟨"", false, some 3⟩ } [] "." "127.0.0.1:8080" 0
      = ⟨[status150, status426], "x\r\n"⟩ := by
  decide

theorem Wire.write_of_takes (w : Wire) (s : String) (h : ∀ b, w.budget = some b → s.length ≤ b) :
    w.write s = (⟨w.budget.map (fun b => b - s.length), w.sent ++ s⟩, true) := by
  unfold Wire.write
  cases hb : w.budget with
  | none => rfl
  | some b => simp [h b hb]

theorem netDial_putFile (w : World) (path content address : String) :
    netDial (w.putFile path content) address = netDial w address := rfl

/-- Where the joined path of `getFile` names the file `storeFile` creates,
the round trip holds: a `STOR` that creates the file and reads the peer's
bytes `b` to the end replies 150, 226, and a following `RETR` of the same name
to a peer that takes all bytes replies 150, 226 and sends `b` followed by one
line ending. -/
theorem stor_then_retr_same_file (w : World) (a workDir address : String) (dataType : Int)
    (conn : DataConn)
    (hsame : filepathClean (filepathJoin [workDir, a]) = filepathClean a)
    (hcreate : w.canCreate a = true) (hdial : netDial w address = some conn)
    (hread : conn.readFails = false)
    (hwrite : conn.takes (conn.incoming ++ EOL dataType).length) :
    (storeFile w [a] workDir address dataType).1.replies = [status150, status226] ∧
    getFile (storeFile w [a] workDir address dataType).2 [a] workDir address dataType
      = ⟨[status150, status226], conn.incoming ++ EOL dataType⟩ := by
  have hs : storeFile w [a] workDir address dataType
      = (⟨[status150, status226], ""⟩, w.putFile a conn.incoming) := by
    simp [storeFile, hcreate, hdial, hread]
  have hopen : (w.putFile a conn.incoming).openFile (filepathJoin [workDir, a])
      = some ⟨conn.incoming, false⟩ := by
    simp [World.putFile, hsame]
  have h1 : ∀ b, conn.writeBudget = some b → conn.incoming.length ≤ b := by
    intro b hb
    have := hwrite b hb
    rw [String.length_append] at this
    omega
  have hw1 := Wire.write_of_takes ⟨conn.writeBudget, ""⟩ conn.incoming h1
  have hw2 := Wire.write_of_takes
    ⟨conn.writeBudget.map (fun b => b - conn.incoming.length), conn.incoming⟩
    (EOL dataType) (by
      intro b hb
      cases hwb : conn.writeBudget with
      | none => simp [hwb] at hb
      | some b0 =>
        simp only [hwb, Option.map_some', Option.some.injEq] at hb
        have := hwrite b0 hwb
        rw [String.length_append] at this
        omega)
  rw [hs]
  refine ⟨rfl, ?_⟩
  simp only [String.empty_append] at hw1
  simp only [getFile, hopen, netDial_putFile, hdial, hw1, hw2, Bool.false_eq_true, if_false]

/-- A concrete round trip: in the directory of the process, `STOR x` of "new"
then `RETR x` sends "new" and the ASCII line ending. -/
theorem stor_then_retr_same_file_witness :
    getFile (storeFile demoWorld ["x"] "." "127.0.0.1:8080" 0).2 ["x"] "." "127.0.0.1:8080" 0
      = ⟨[status150, status226], "new\r\n"⟩ :=
  (stor_then_retr_same_file demoWorld "x" "." "127.0.0.1:8080" 0 ⟨"new", false, none⟩
    (by decide) rfl (by decide) rfl (fun _ hb => Option.noConfusion hb)).2

/-! ## `LIST`: the bytes on the data connection -/

theorem listingText_length_cons (eol name : String) (names : List String) :
    (listingText eol (name :: names)).length
      = (name ++ eol).length + (listingText eol names).length := by
  simp [listingText, String.length_append]

theorem writeNames_then_eol (eol : String) (names : List String) (w : Wire)
    (h : ∀ b, w.budget = some b → (listingText eol names).length ≤ b) :
    ∃ w1 w2, writeNames eol names w = (w1, true) ∧ w1.write eol = (w2, true) ∧
      w2.sent = w.sent ++ listingText eol names := by
  induction names generalizing w with
  | nil =>
    refine ⟨w, _, rfl, Wire.write_of_takes w eol h, rfl⟩
  | cons name names ih =>
    have h1 : ∀ b, w.budget = some b → (name ++ eol).length ≤ b := by
      intro b hb
      have := h b hb
      rw [listingText_length_cons] at this
      omega
    have hw := Wire.write_of_takes w (name ++ eol) h1
    obtain ⟨w1, w2, e1, e2, e3⟩ := ih
      ⟨w.budget.map (fun b => b - (name ++ eol).length), w.sent ++ (name ++ eol)⟩ (by
        intro b hb
        cases hwb : w.budget with
        | none => simp [hwb] at hb
        | some b0 =>
          simp only [hwb, Option.map_some', Option.some.injEq] at hb
          have := h b0 hwb
          rw [listingText_length_cons] at this
          omega)
    refine ⟨w1, w2, ?_, e2, ?_⟩
    · simp only [writeNames, hw]
      exact e1
    · rw [e3]
      simp [listingText, String.append_assoc]

/-- C7. For every list of entry names and every representation type, a `LIST`
whose directory read and data-connection open succeed and whose peer takes
all the bytes sends exactly each name followed by the line ending of the
type, in directory order, then one more line ending, and replies 150, 226;
the line ending is "\r\n" for ASCII (0) and "\n" for IMAGE (1). -/
theorem list_sends_listing (w : World) (args : List String) (workDir address : String)
    (dataType : Int) (names : List String) (conn : DataConn)
    (hdir : w.readDir (listTarget workDir args) = some names)
    (hdial : netDial w address = some conn)
    (hwrite : conn.takes (listingText (EOL dataType) names).length) :
    (list w args workDir address dataType).data = listingText (EOL dataType) names ∧
    (list w args workDir address dataType).replies = [status150, status226] ∧
    EOL 0 = "\r\n" ∧ EOL 1 = "\n" := by
  obtain ⟨w1, w2, e1, e2, e3⟩ :=
    writeNames_then_eol (EOL dataType) names ⟨conn.writeBudget, ""⟩ hwrite
  have e4 : w2.sent = listingText (EOL dataType) names := by
    rw [e3]
    exact String.empty_append _
  refine ⟨?_, ?_, rfl, rfl⟩
  · simp only [list, hdir, hdial, e1, e2, e4]
  · simp only [list, hdir, hdial, e1, e2]

theorem Wire.write_sent (w w1 : Wire) (s : String) (h : w.write s = (w1, true)) :
    w1.sent = w.sent ++ s := by
  unfold Wire.write at h
  cases hb : w.budget with
  | none =>
    rw [hb] at h
    simp only [Prod.mk.injEq, and_true] at h
    rw [← h]
  | some b =>
    rw [hb] at h
    dsimp only at h
    split_ifs at h
    · simp only [Prod.mk.injEq, and_true] at h
      rw [← h]
    · simp at h

theorem writeNames_sent (eol : String) (names : List String) (w w1 w2 : Wire)
    (h1 : writeNames eol names w = (w1, true)) (h2 : w1.write eol = (w2, true)) :
    w2.sent = w.sent ++ listingText eol names := by
  induction names generalizing w with
  | nil =>
    simp only [writeNames, Prod.mk.injEq, and_true] at h1
    subst h1
    exact Wire.write_sent _ _ _ h2
  | cons name names ih =>
    simp only [writeNames] at h1
    split at h1
    · rename_i w3 hw3
      rw [ih w3 h1, Wire.write_sent _ _ _ hw3]
      simp [listingText, String.append_assoc]
    · simp at h1

/-- A `LIST` that ends with 226 has read the directory and has sent exactly
the listing of its entries. -/
theorem list_success_exact (w : World) (args : List String) (workDir address : String)
    (dataType : Int)
    (h : (list w args workDir address dataType).replies = [status150, status226]) :
    ∃ names, w.readDir (listTarget workDir args) = some names ∧
      (list w args workDir address dataType).data = listingText (EOL dataType) names := by
  have n1 : [status550] ≠ [status150, status226] := by decide
  have n2 : [status150, status425] ≠ [status150, status226] := by decide
  have n3 : [status150, status426] ≠ [status150, status226] := by decide
  cases hdir : w.readDir (listTarget workDir args) with
  | none =>
    simp only [list, hdir] at h
    exact absurd h n1
  | some names =>
    refine ⟨names, rfl, ?_⟩
    cases hdial : netDial w address with
    | none =>
      simp only [list, hdir, hdial] at h
      exact absurd h n2
    | some conn =>
      cases hwn : writeNames (EOL dataType) names ⟨conn.writeBudget, ""⟩ with
      | mk w1 ok1 =>
        cases ok1 with
        | false =>
          simp only [list, hdir, hdial, hwn] at h
          exact absurd h n3
        | true =>
          cases hwe : w1.write (EOL dataType) with
          | mk w2 ok2 =>
            cases ok2 with
            | false =>
              simp only [list, hdir, hdial, hwn, hwe] at h
              exact absurd h n3
            | true =>
              simp only [list, hdir, hdial, hwn, hwe]
              rw [writeNames_sent _ _ _ _ _ hwn hwe]
              exact String.empty_append _

/-- The witness of C7: the entries a.txt, b.txt in ASCII give
"a.txt\r\nb.txt\r\n\r\n". -/
theorem list_sends_listing_witness :
    (list { demoWorld with readDir := fun _ => some ["a.txt", "b.txt"] } [] "."
        "127.0.0.1:8080" 0).data = "a.txt\r\nb.txt\r\n\r\n" ∧
    (list { demoWorld with readDir := fun _ => some ["a.txt", "b.txt"] } [] "."
        "127.0.0.1:8080" 0).replies = [status150, status226] :=
  have h := list_sends_listing { demoWorld with readDir := fun _ => some ["a.txt", "b.txt"] }
    [] "." "127.0.0.1:8080" 0 ["a.txt", "b.txt"] ⟨"new", false, none⟩ rfl (by decide)
    (fun _ hb => Option.noConfusion hb)
  ⟨h.1, h.2.1⟩

/-! ## `TYPE` -/

/-- C10. In every session state `TYPE A` followed by `TYPE A` replies 200 both
times and the representation type after the second equals the one after the
first; for every first argument other than `A` and `I`, `TYPE` replies 504
and leaves the representation type (and the rest of the session) as it was. -/
theorem setDataType_idempotent_and_rejects (w : World) (sh : Shared) (lo : Local)
    (a : String) (rest : List String) (hA : a ≠ "A") (hI : a ≠ "I") :
    (scanLoop w sh lo ["TYPE A", "TYPE A"]).replies = [status200, status200] ∧
    (scanLoop w sh lo ["TYPE A", "TYPE A"]).loc = (scanLoop w sh lo ["TYPE A"]).loc ∧
    (dispatch w sh lo "TYPE" (a :: rest)).map Step.replies = some [status504] ∧
    (dispatch w sh lo "TYPE" (a :: rest)).map Step.loc = some lo := by
  refine ⟨rfl, rfl, ?_, ?_⟩
  · simp [dispatch, setDataType, hA, hI]
  · simp [dispatch, setDataType, hA, hI]

/-- The witness of C10: `TYPE X` in a session in IMAGE mode. -/
theorem setDataType_idempotent_and_rejects_witness :
    (scanLoop demoWorld ⟨".", "/srv"⟩ ⟨"", 1⟩ ["TYPE A", "TYPE A"]).replies
      = [status200, status200] ∧
    (dispatch demoWorld ⟨".", "/srv"⟩ ⟨"", 1⟩ "TYPE" ["X"]).map Step.replies
      = some [status504] ∧
    (dispatch demoWorld ⟨".", "/srv"⟩ ⟨"", 1⟩ "TYPE" ["X"]).map Step.loc = some ⟨"", 1⟩ :=
  have h := setDataType_idempotent_and_rejects demoWorld ⟨".", "/srv"⟩ ⟨"", 1⟩ "X" []
    (by decide) (by decide)
  ⟨h.1, h.2.2.1, h.2.2.2⟩

/-! ## The form of the replies -/

theorem isReplyLine_status230 (name : String) : isReplyLine (status230 name) = true := by
  have h : (status230 name).data
      = '2' :: '3' :: '0' :: ' ' :: 'U' :: ("ser " ++ name ++ " logged in.").data := by
    simp only [status230, String.data_append]
    rfl
  simp only [isReplyLine, h]
  decide

theorem mem_handlerReplies_one (a : String) (ha : a ∈ handlerReplies) :
    ∀ r ∈ [a], r ∈ handlerReplies := by
  intro r hr
  simp only [List.mem_singleton] at hr
  subst hr
  exact ha

theorem mem_handlerReplies_two (a b : String) (ha : a ∈ handlerReplies)
    (hb : b ∈ handlerReplies) : ∀ r ∈ [a, b], r ∈ handlerReplies := by
  intro r hr
  simp only [List.mem_cons, List.mem_singleton, List.not_mem_nil, or_false] at hr
  rcases hr with rfl | rfl
  · exact ha
  · exact hb

theorem list_replies_mem (w : World) (args : List String) (workDir address : String)
    (dataType : Int) :
    ∀ r ∈ (list w args workDir address dataType).replies, r ∈ handlerReplies := by
  unfold list
  repeat' split
  all_goals first
    | exact mem_handlerReplies_one _ (by decide)
    | exact mem_handlerReplies_two _ _ (by decide) (by decide)

theorem getFile_replies_mem (w : World) (args : List String) (workDir address : String)
    (dataType : Int) :
    ∀ r ∈ (getFile w args workDir address dataType).replies, r ∈ handlerReplies := by
  unfold getFile
  repeat' split
  all_goals first
    | exact mem_handlerReplies_one _ (by decide)
    | exact mem_handlerReplies_two _ _ (by decide) (by decide)

theorem storeFile_replies_mem (w : World) (args : List String) (workDir address : String)
    (dataType : Int) :
    ∀ r ∈ (storeFile w args workDir address dataType).1.replies, r ∈ handlerReplies := by
  unfold storeFile
  split
  · dsimp only
    split
    · exact mem_handlerReplies_two _ _ (by decide) (by decide)
    · split_ifs <;> exact mem_handlerReplies_two _ _ (by decide) (by decide)
  · exact mem_handlerReplies_one _ (by decide)

theorem setDataType_replies_mem (args : List String) (dataType : Int) :
    ∀ r ∈ (setDataType args dataType).1, r ∈ handlerReplies := by
  unfold setDataType
  split
  · exact mem_handlerReplies_one _ (by decide)
  · split_ifs <;> exact mem_handlerReplies_one _ (by decide)

theorem changeDir_reply_mem (w : World) (args : List String) (workdir absPath : String) :
    (changeDir w args workdir absPath).1 ∈ handlerReplies := by
  unfold changeDir
  split
  · dsimp only
    split_ifs
    · exact (by decide : status200 ∈ handlerReplies)
    · exact (by decide : status550 ∈ handlerReplies)
  · exact (by decide : status501 ∈ handlerReplies)

theorem handlerReplies_form : ∀ r ∈ handlerReplies, isReplyLine r = true := by
  decide

theorem replies_one_form (a : String) (ha : isReplyLine a = true) :
    ∀ r ∈ [a], isReplyLine r = true := by
  intro r hr
  simp only [List.mem_singleton] at hr
  subst hr
  exact ha

/-- C9. In the session of a server running in `/srv` the reply to `PWD` is
the bare path `/srv`: it does not have the form of a 3-digit status code, one
space and a message that the claim gives for every reply, and that the
greeting sent just before it and the replies of all the other cases have. -/
theorem pwd_reply_has_no_status_code :
    (handleConn demoWorld ⟨".", "/srv"⟩ ["PWD"]).replies = ["220 OK FTP server", "/srv"] ∧
    isReplyLine "220 OK FTP server" = true ∧
    isReplyLine "/srv" = false := by
  decide

theorem isReplyLine_of_isAbs (p : String) (h : filepathIsAbs p = true) :
    isReplyLine p = false := by
  unfold filepathIsAbs at h
  unfold isReplyLine
  split
  · rename_i a b c sp m rest heq
    rw [heq] at h
    simp only [decide_eq_true_eq] at h
    subst h
    rfl
  · rfl

/-- In every session state whose stored absolute path is an absolute path,
the one reply to `PWD` is that path and is not of the status form. -/
theorem pwd_reply_not_status_form (w : World) (sh : Shared) (lo : Local) (args : List String)
    (h : filepathIsAbs sh.absPath = true) :
    (dispatch w sh lo "PWD" args).map Step.replies = some [sh.absPath] ∧
    isReplyLine sh.absPath = false :=
  ⟨by simp [dispatch], isReplyLine_of_isAbs _ h⟩

/-- The greeting and every reply to a command other than `PWD` (USER, CWD,
PORT, LPRT, QUIT, TYPE, LIST, RETR, STOR, unrecognized verbs), in every
session state, have the form of a 3-digit status code, one space, then a
message. -/
theorem other_replies_have_status_form (w : World) (sh : Shared) (lo : Local)
    (command : String) (args : List String) (st : Step) (hcmd : command ≠ "PWD")
    (hst : dispatch w sh lo command args = some st) :
    isReplyLine (status220 ++ " FTP server") = true ∧
    (∀ r ∈ st.replies, isReplyLine r = true) := by
  refine ⟨by decide, ?_⟩
  unfold dispatch at hst
  split_ifs at hst with h1 h2 h3 h4 h5 h6 h7 h8 h9
  · cases hst
    exact replies_one_form _ (isReplyLine_status230 _)
  · cases hst
    exact replies_one_form _ (handlerReplies_form _ (changeDir_reply_mem _ _ _ _))
  · cases hst
    exact fun r hr => handlerReplies_form r (list_replies_mem _ _ _ _ _ r hr)
  · cases args with
    | nil => simp at hst
    | cons a rest =>
      simp only [Option.some.injEq] at hst
      subst hst
      exact replies_one_form _ (by decide)
  · cases hst
    exact replies_one_form _ (by decide)
  · cases hst
    exact replies_one_form _ (by decide)
  · cases hst
    exact fun r hr => handlerReplies_form r (getFile_replies_mem _ _ _ _ _ r hr)
  · cases hst
    exact fun r hr => handlerReplies_form r (setDataType_replies_mem _ _ r hr)
  · cases hst
    exact fun r hr => handlerReplies_form r (storeFile_replies_mem _ _ _ _ _ r hr)
  · cases hst
    exact replies_one_form _ (by decide)

/-- A concrete instance: `USER anonymous` in the small world. -/
theorem other_replies_have_status_form_instance :
    ∀ r ∈ [status230 "anonymous"], isReplyLine r = true :=
  (other_replies_have_status_form demoWorld ⟨".", "/srv"⟩ ⟨"", 0⟩ "USER" ["anonymous"]
    ⟨demoWorld, ⟨".", "/srv"⟩, ⟨"", 0⟩, [status230 "anonymous"], "", false⟩ (by decide) rfl).2

/-! ## Sessions of one server -/

/-- C4. With two connections open on a server started in `/srv`, `CWD sub` on
connection 0 changes the working directory of connection 1 from (`.`, `/srv`)
to (`sub`, `/srv/sub`); and a connection accepted after connection 0 has sent
`CWD sub` and `QUIT` starts in `sub`, not in the configured root. The claim
says neither happens. The peer address and the type of connection 1 stay as
they were. -/
theorem cwd_changes_workdir_of_other_connection :
    mainInit demoWorld = some demoServer ∧
    demoServer.workingDirAfter [Event.accept, Event.accept] 1 = some ⟨".", "/srv"⟩ ∧
    demoServer.workingDirAfter [Event.accept, Event.accept, Event.line 0 "CWD sub"] 1
      = some ⟨"sub", "/srv/sub"⟩ ∧
    demoServer.workingDirAfter
      [Event.accept, Event.line 0 "CWD sub", Event.line 0 "QUIT", Event.accept] 1
      = some ⟨"sub", "/srv/sub"⟩ ∧
    demoServer.localsAfter [Event.accept, Event.accept, Event.line 0 "CWD sub"] 1
      = some ⟨"", 0⟩ := by
  refine ⟨rfl, by decide, by decide, by decide, by decide⟩

/-- The variables a handler declares itself are its own: a command processed
on connection `i` never changes the representation type or the peer data
address of another connection `j`. -/
theorem locals_untouched_by_other_connection (s s1 : Server) (i j : Nat) (text : String)
    (hij : i ≠ j) (hstep : s.step (Event.line i text) = some s1) :
    s1.locals j = s.locals j := by
  have key : s1.conns = s.conns ∨ ∃ c, s1.conns = s.conns.set i c := by
    simp only [Server.step] at hstep
    cases hget : s.conns[i]? with
    | none =>
      rw [hget] at hstep
      simp only [Option.some.injEq] at hstep
      subst hstep
      exact Or.inl rfl
    | some c =>
      rw [hget] at hstep
      by_cases hc : c.closed = true
      · simp only [hc, if_true, Option.some.injEq] at hstep
        subst hstep
        exact Or.inl rfl
      · simp only [hc, Bool.false_eq_true, if_false] at hstep
        cases hl : handleLine s.world s.shared c.loc text with
        | none =>
          rw [hl] at hstep
          exact absurd hstep (by simp)
        | some st =>
          rw [hl] at hstep
          simp only [Option.some.injEq] at hstep
          subst hstep
          exact Or.inr ⟨_, rfl⟩
  rcases key with h | ⟨c, h⟩
  · simp only [Server.locals, h]
  · simp only [Server.locals, h, List.getElem?_set_ne hij]

/-- A concrete instance: `TYPE I` on connection 0 of two leaves connection 1
in ASCII mode. -/
theorem locals_untouched_by_other_connection_instance :
    (⟨demoWorld, ⟨".", "/srv"⟩, [⟨⟨"", 1⟩, false⟩, ⟨⟨"", 0⟩, false⟩]⟩ : Server).locals 1
      = some ⟨"", 0⟩ :=
  locals_untouched_by_other_connection
    ⟨demoWorld, ⟨".", "/srv"⟩, [⟨⟨"", 0⟩, false⟩, ⟨⟨"", 0⟩, false⟩]⟩
    ⟨demoWorld, ⟨".", "/srv"⟩, [⟨⟨"", 1⟩, false⟩, ⟨⟨"", 0⟩, false⟩]⟩ 0 1 "TYPE I"
    (by decide) rfl

/-- A newly accepted connection starts with an empty peer address and type
ASCII; its working directory is whatever the variables of `main` hold then. -/
theorem accept_starts_connection (s : Server) :
    s.localsAfter [Event.accept] s.conns.length = some ⟨"", 0⟩ ∧
    s.workingDirAfter [Event.accept] s.conns.length = some s.shared := by
  constructor
  · simp [Server.localsAfter, Server.run, Server.step, Server.locals]
  · simp [Server.workingDirAfter, Server.run, Server.step, Server.workingDir]

/-! ## `QUIT` -/

/-- C8. On the lines `PORT`, `QUIT` the session sends the greeting only: the
first line panics at `args[0]` and ends the process before `QUIT` is read, so
no 221 reply is sent, where the claim says exactly one is. -/
theorem quit_after_PORT_panic_sends_no_221 (w : World) (sh : Shared) :
    (handleConn w sh ["PORT", "QUIT"]).replies = ["220 OK FTP server"] ∧
    (handleConn w sh ["PORT", "QUIT"]).ending = Ending.panic ∧
    (handleConn w sh ["PORT", "QUIT"]).processed = 0 := by
  refine ⟨rfl, rfl, rfl⟩

theorem filepathClean_isAbs (p : String) (h : filepathIsAbs p = true) :
    filepathIsAbs (filepathClean p) = true := by
  unfold filepathIsAbs at h
  unfold filepathClean
  cases hp : p.data with
  | nil => simp [hp] at h
  | cons c cs =>
    simp only [hp, decide_eq_true_eq] at h
    subst h
    simp [filepathIsAbs]

theorem filepathJoin_isAbs (wd p : String) (h : filepathIsAbs wd = true) :
    filepathIsAbs (filepathJoin [wd, p]) = true := by
  have hne : wd ≠ "" := by
    rintro rfl
    exact absurd h (by decide)
  simp only [filepathJoin, hne, if_false]
  apply filepathClean_isAbs
  unfold filepathIsAbs at h ⊢
  cases hp : wd.data with
  | nil => simp [hp] at h
  | cons c cs =>
    simp only [hp] at h
    simp only [stringsJoin, String.data_append, hp, List.cons_append]
    exact h

theorem filepathAbs_ne_status221 (w : World) (hw : w.absoluteWd) (p : String) :
    (filepathAbs w p).getD "" ≠ status221 := by
  have key : ∀ q, filepathIsAbs q = true → q ≠ status221 := by
    rintro q hq rfl
    exact absurd hq (by decide)
  unfold filepathAbs
  split_ifs with h
  · exact key _ (filepathClean_isAbs p h)
  · cases hg : w.getwd with
    | none => exact (by decide : ("" : String) ≠ status221)
    | some wd => exact key _ (filepathJoin_isAbs wd p (hw wd hg))

theorem changeDir_absPath_ne_status221 (w : World) (hw : w.absoluteWd) (args : List String)
    (workdir absPath : String) (h : absPath ≠ status221) :
    (changeDir w args workdir absPath).2.2 ≠ status221 := by
  unfold changeDir
  split
  · dsimp only
    split_ifs <;> exact filepathAbs_ne_status221 w hw _
  · exact h

theorem storeFile_getwd (w : World) (args : List String) (workDir address : String)
    (dataType : Int) : (storeFile w args workDir address dataType).2.getwd = w.getwd := by
  unfold storeFile
  split
  · dsimp only
    split
    · split_ifs <;> rfl
    · split_ifs <;> rfl
  · rfl

theorem status230_ne_status221 (name : String) : status230 name ≠ status221 := by
  intro h
  have h1 : (status230 name).data.get? 1 = some '3' := by
    simp only [status230, String.data_append]
    rfl
  rw [h] at h1
  exact absurd h1 (by decide)

theorem not_mem_one (a : String) (ha : a ≠ status221) : status221 ∉ [a] := by
  simp only [List.mem_singleton]
  exact fun h => ha h.symm

theorem not_mem_of_handlerReplies (rs : List String) (h : ∀ r ∈ rs, r ∈ handlerReplies) :
    status221 ∉ rs :=
  fun hm => absurd (h _ hm) (by decide)

/-- A command other than `QUIT` does not end the session, sends no 221 reply
and keeps the stored absolute path different from the text of the 221 reply. -/
theorem dispatch_not_quit (w : World) (sh : Shared) (lo : Local) (command : String)
    (args : List String) (st : Step) (hq : command ≠ "QUIT") (hw : w.absoluteWd)
    (hsh : sh.absPath ≠ status221) (hst : dispatch w sh lo command args = some st) :
    st.quit = false ∧ status221 ∉ st.replies ∧ st.world.absoluteWd ∧
      st.shared.absPath ≠ status221 := by
  unfold dispatch at hst
  split_ifs at hst with h1 h2 h3 h4 h5 h6 h7 h8 h9
  · cases hst
    exact ⟨rfl, not_mem_one _ (status230_ne_status221 _), hw, hsh⟩
  · cases hst
    exact ⟨rfl, not_mem_of_handlerReplies _
      (mem_handlerReplies_one _ (changeDir_reply_mem _ _ _ _)), hw,
      changeDir_absPath_ne_status221 w hw _ _ _ hsh⟩
  · cases hst
    exact ⟨rfl, not_mem_of_handlerReplies _ (list_replies_mem _ _ _ _ _), hw, hsh⟩
  · cases args with
    | nil => simp at hst
    | cons a rest =>
      simp only [Option.some.injEq] at hst
      subst hst
      exact ⟨rfl, not_mem_one _ (by decide), hw, hsh⟩
  · cases hst
    exact ⟨rfl, not_mem_one _ (by decide), hw, hsh⟩
  · cases hst
    exact ⟨rfl, not_mem_of_handlerReplies _ (getFile_replies_mem _ _ _ _ _), hw, hsh⟩
  · cases hst
    exact ⟨rfl, not_mem_of_handlerReplies _ (setDataType_replies_mem _ _), hw, hsh⟩
  · cases hst
    exact ⟨rfl, not_mem_one _ hsh, hw, hsh⟩
  · cases hst
    refine ⟨rfl, not_mem_of_handlerReplies _ (storeFile_replies_mem _ _ _ _ _), ?_, hsh⟩
    intro wd hwd
    rw [storeFile_getwd] at hwd
    exact hw wd hwd
  · cases hst
    exact ⟨rfl, not_mem_one _ (by decide), hw, hsh⟩

theorem handleLine_not_quit (w : World) (sh : Shared) (lo : Local) (line : String) (st : Step)
    (hq : isQuitLine line = false) (hw : w.absoluteWd) (hsh : sh.absPath ≠ status221)
    (hst : handleLine w sh lo line = some st) :
    st.quit = false ∧ status221 ∉ st.replies ∧ st.world.absoluteWd ∧
      st.shared.absPath ≠ status221 := by
  unfold handleLine at hst
  unfold isQuitLine at hq
  cases hf : stringsFields line with
  | nil =>
    rw [hf] at hst
    cases hst
    exact ⟨rfl, List.not_mem_nil _, hw, hsh⟩
  | cons command args =>
    rw [hf] at hst hq
    have hc : command ≠ "QUIT" := by
      rintro rfl
      simp at hq
    exact dispatch_not_quit w sh lo command args st hc hw hsh hst

theorem handleLine_quit (w : World) (sh : Shared) (lo : Local) (line : String)
    (hq : isQuitLine line = true) :
    handleLine w sh lo line = some ⟨w, sh, lo, [status221], "", true⟩ := by
  unfold handleLine
  unfold isQuitLine at hq
  cases hf : stringsFields line with
  | nil =>
    rw [hf] at hq
    simp at hq
  | cons command args =>
    rw [hf] at hq
    have hc : command = "QUIT" := by simpa using hq
    subst hc
    rfl

/-- What the code keeps of the `QUIT` contract. Let `pre` hold no `QUIT` line and be
processed without a panic, and let `q` be a `QUIT` line. Then for every `post`
the session over `pre`, `q`, `post` ends at `q`: its replies are those of
`pre` followed by 221, no reply of `pre` is the 221 reply, exactly the lines
up to `q` are processed, and the session state is the one `pre` left. -/
theorem scanLoop_until_quit (pre : List String) (q : String) (post : List String) :
    ∀ (w : World) (sh : Shared) (lo : Local),
      (∀ l ∈ pre, isQuitLine l = false) → isQuitLine q = true →
      (scanLoop w sh lo pre).ending ≠ Ending.panic →
      w.absoluteWd → sh.absPath ≠ status221 →
      (scanLoop w sh lo (pre ++ q :: post)).ending = Ending.quit ∧
      (scanLoop w sh lo (pre ++ q :: post)).replies
        = (scanLoop w sh lo pre).replies ++ [status221] ∧
      status221 ∉ (scanLoop w sh lo pre).replies ∧
      (scanLoop w sh lo (pre ++ q :: post)).processed = pre.length + 1 ∧
      (scanLoop w sh lo (pre ++ q :: post)).shared = (scanLoop w sh lo pre).shared ∧
      (scanLoop w sh lo (pre ++ q :: post)).loc = (scanLoop w sh lo pre).loc := by
  induction pre with
  | nil =>
    intro w sh lo _ hq _ _ _
    simp only [List.nil_append, scanLoop, handleLine_quit w sh lo q hq]
    exact ⟨rfl, rfl, List.not_mem_nil _, rfl, rfl, rfl⟩
  | cons l pre ih =>
    intro w sh lo hpre hq hnp hw hsh
    have hl : isQuitLine l = false := hpre l (List.mem_cons_self _ _)
    cases hh : handleLine w sh lo l with
    | none =>
      simp only [scanLoop, hh] at hnp
      exact absurd rfl hnp
    | some st =>
      obtain ⟨h1, h2, h3, h4⟩ := handleLine_not_quit w sh lo l st hl hw hsh hh
      simp only [scanLoop, hh, h1, Bool.false_eq_true, if_false] at hnp
      obtain ⟨i1, i2, i3, i4, i5, i6⟩ := ih st.world st.shared st.loc
        (fun x hx => hpre x (List.mem_cons_of_mem _ hx)) hq hnp h3 h4
      simp only [List.cons_append, scanLoop, hh, h1, Bool.false_eq_true, if_false]
      refine ⟨i1, ?_, ?_, ?_, i5, i6⟩
      · show st.replies ++ (scanLoop st.world st.shared st.loc (pre ++ q :: post)).replies = _
        rw [i2, List.append_assoc]
      · simp only [List.mem_append, not_or]
        exact ⟨h2, i3⟩
      · show (scanLoop st.world st.shared st.loc (pre ++ q :: post)).processed + 1 = _
        rw [i4, List.length_cons]

theorem demoWorld_absoluteWd : demoWorld.absoluteWd := by
  intro wd h
  have h1 : wd = "/srv" := by
    simp only [demoWorld, Option.some.injEq] at h
    exact h.symm
  subst h1
  rfl

/-- A concrete run: `USER a`, `PWD`, `QUIT`, `PWD` in the small world ends at
`QUIT` after three lines, with 221 as the last reply. -/
theorem scanLoop_until_quit_witness :
    (scanLoop demoWorld ⟨".", "/srv"⟩ ⟨"", 0⟩ ["USER a", "PWD", "QUIT", "PWD"]).ending
      = Ending.quit ∧
    (scanLoop demoWorld ⟨".", "/srv"⟩ ⟨"", 0⟩ ["USER a", "PWD", "QUIT", "PWD"]).replies
      = (scanLoop demoWorld ⟨".", "/srv"⟩ ⟨"", 0⟩ ["USER a", "PWD"]).replies ++ [status221] ∧
    (scanLoop demoWorld ⟨".", "/srv"⟩ ⟨"", 0⟩ ["USER a", "PWD", "QUIT", "PWD"]).processed = 3 :=
  have h := scanLoop_until_quit ["USER a", "PWD"] "QUIT" ["PWD"] demoWorld ⟨".", "/srv"⟩ ⟨"", 0⟩
    (by decide) (by decide) (by decide) demoWorld_absoluteWd (by decide)
  ⟨h.1, h.2.1, h.2.2.2.1⟩

end Ftp
